import Mathlib

set_option linter.unusedVariables false

/-!
Verification of the `knowledge-repo` repository abstraction layer.

This file gives a shallow embedding of the folder storage backend
(`src/knowledge_repo/repositories/folder.py`) and of the hook-aware git
commit wrapper (`src/knowledge_repo/utils/git.py`), and proves or refutes
the specified properties about them.

Posts are stored in one of two physical forms: an expanded directory of
reference files, or a packed single `.kp` archive file.  The folder backend
dispatches on `os.path.isdir` / `os.path.isfile` at the top of each
reference operation.  The `KnowledgePost` packed-archive class and the
`read_binary` / `write_binary` / `encode` helpers live outside the
translated sources; where they are needed they are modelled from the spec,
and each such definition says so in its doc comment.
-/

namespace KR

/-- A byte string, each entry a byte value. -/
abbrev Bytes := List Nat

/-- Association-list update: overwrite the binding of `name` (or append it).
Models both `write_binary` to a file path inside an expanded post directory
and a reference overwrite inside the in-memory packed archive. -/
def setRef : List (String × Bytes) → String → Bytes → List (String × Bytes)
  | [], name, data => [(name, data)]
  | (n, d) :: rest, name, data =>
      if n = name then (n, data) :: rest else (n, d) :: setRef rest name data

/-- Association-list lookup for a reference name. -/
def getRef : List (String × Bytes) → String → Option Bytes
  | [], _ => none
  | (n, d) :: rest, name => if n = name then some d else getRef rest name

/-- The physical state of one post inside a folder-backed repository:
an expanded directory of reference files, a packed single `.kp` archive
file, or nothing on disk at that path. -/
inductive PostStore where
  | expanded (files : List (String × Bytes))
  | packed (refs : List (String × Bytes))
  | absent
deriving DecidableEq, Repr

/-- Python exceptions relevant to the folder backend's filesystem calls. -/
inductive PyError where
  | fileNotFound
  | notADirectory
deriving DecidableEq, Repr

/-- `FolderKnowledgeRepository._kp_write_ref` (folder.py lines 188-199):
`os.path.isfile` detects the packed form, in which case the archive is
loaded, mutated and rewritten; otherwise the reference file is written
inside the (possibly just created) post directory.  A path with nothing on
disk takes the directory branch, `os.makedirs` creating the expanded form.
The `KnowledgePost` archive and `write_binary` are not under `src/`;
modelled from the spec: the packed archive stores references
round-trip-exactly and `write_binary` writes the given bytes. -/
def kpWriteRef (st : PostStore) (reference : String) (data : Bytes) : PostStore :=
  match st with
  | .packed refs => .packed (setRef refs reference data)
  | .expanded files => .expanded (setRef files reference data)
  | .absent => .expanded (setRef [] reference data)

/-- `FolderKnowledgeRepository._kp_read_ref` (folder.py lines 236-242):
`os.path.isdir` detects the expanded form, read via `read_binary`;
otherwise `KnowledgePost.from_file` loads the packed archive (raising
`FileNotFoundError` when nothing is on disk) and `_read_ref` returns the
reference's bytes.  `KnowledgePost` and `read_binary` are not under `src/`;
modelled from the spec: reads return the stored bytes and fail with
`NotFound` on a missing reference or post. -/
def kpReadRef (st : PostStore) (reference : String) : Except PyError Bytes :=
  match st with
  | .expanded files =>
    match getRef files reference with
    | some d => .ok d
    | none => .error .fileNotFound
  | .packed refs =>
    match getRef refs reference with
    | some d => .ok d
    | none => .error .fileNotFound
  | .absent => .error .fileNotFound

/-- `FolderKnowledgeRepository._kp_has_ref` (folder.py lines 220-226):
for the expanded form `os.path.isfile` probes the reference file; otherwise
`KnowledgePost.from_file(path)` is loaded first, which raises
`FileNotFoundError` when the post does not exist at all. -/
def kpHasRef (st : PostStore) (reference : String) : Except PyError Bool :=
  match st with
  | .expanded files => .ok (getRef files reference).isSome
  | .packed refs => .ok (getRef refs reference).isSome
  | .absent => .error .fileNotFound

/-- The publication lifecycle statuses (`KnowledgeRepository.PostStatus`,
named in the spec: DRAFT, SUBMITTED, PUBLISHED, UNPUBLISHED). -/
inductive PostStatus where
  | draft
  | submitted
  | published
  | unpublished
deriving DecidableEq, Repr

/-- `FolderKnowledgeRepository._kp_status` (folder.py lines 173-174):
returns `PostStatus.PUBLISHED` unconditionally. -/
def kpStatus (path : String) (revision : Option Nat) : PostStatus :=
  PostStatus.published

/-- `FolderKnowledgeRepository._remove` (folder.py lines 153-154):
`shutil.rmtree(os.path.join(self.path, path))`.  `shutil.rmtree` deletes a
directory tree; on a regular file it raises `NotADirectoryError`, and on a
missing path it raises `FileNotFoundError`. -/
def removePost (st : PostStore) : Except PyError PostStore :=
  match st with
  | .expanded _ => .ok .absent
  | .packed _ => .error .notADirectory
  | .absent => .error .fileNotFound

/-- Outcome of a lifecycle method call: normal return or a raised
`NotImplementedError`. -/
inductive OpOutcome where
  | ok
  | notImplementedError
deriving DecidableEq, Repr

/-- `FolderKnowledgeRepository._submit` (folder.py lines 141-142):
`pass` with the comment that added posts are already submitted. -/
def folder_submit (path : Option String) (branch : Option String) (force : Bool) :
    OpOutcome :=
  OpOutcome.ok

/-- `FolderKnowledgeRepository._publish` (folder.py lines 144-145): `pass`. -/
def folder_publish (path : String) : OpOutcome :=
  OpOutcome.ok

/-- `FolderKnowledgeRepository._unpublish` (folder.py lines 147-148):
`raise NotImplementedError`. -/
def folder_unpublish (path : String) : OpOutcome :=
  OpOutcome.notImplementedError

/-- `FolderKnowledgeRepository._accept` (folder.py lines 150-151): `pass`. -/
def folder_accept (path : String) : OpOutcome :=
  OpOutcome.ok

/-- The backend chosen by URI resolution. -/
inductive RepoChoice where
  | folder (path : String)
  | git (path : String)
deriving DecidableEq, Repr

/-- Python's `uri.startswith(pre)`, evaluated over the character lists. -/
def strStartsWith (pre s : String) : Bool :=
  pre.data.isPrefixOf s.data

/-- `FolderKnowledgeRepository.from_uri` (folder.py lines 51-66).
`uriToPath` stands for `uri_to_path` (folder.py lines 17-21, standard
library URL parsing and path decoding) and `gitDirExists uri` for
`os.path.exists(os.path.join(uri, ".git"))`.  A `file://` URI disables the
git check and is decoded; otherwise a `.git` directory at the path selects
`GitKnowledgeRepository`, and the folder backend is the fallback. -/
def from_uri (uriToPath : String → String) (gitDirExists : String → Bool)
    (uri : String) : RepoChoice :=
  if strStartsWith "file://" uri then RepoChoice.folder (uriToPath uri)
  else if gitDirExists uri then RepoChoice.git uri
  else RepoChoice.folder uri

/-- ASCII bytes treated as whitespace by CPython's `int()` parsing. -/
def isPyWs (c : Nat) : Bool :=
  c = 9 || c = 10 || c = 11 || c = 12 || c = 13 || c = 32

/-- ASCII decimal digit bytes. -/
def isDigitByte (c : Nat) : Bool :=
  48 ≤ c && c ≤ 57

/-- Strip leading and trailing ASCII whitespace, as `int()` does before
parsing. -/
def stripWs (b : Bytes) : Bytes :=
  ((b.dropWhile isPyWs).reverse.dropWhile isPyWs).reverse

/-- The decimal value of a digit-byte run, most significant first. -/
def digitsVal (ds : Bytes) : Nat :=
  ds.foldl (fun a c => a * 10 + (c - 48)) 0

/-- Parse an unsigned digit run; empty or non-digit input fails
(`ValueError`). -/
def parseDigits (ds : Bytes) (neg : Bool) : Option Int :=
  if ds ≠ [] ∧ ds.all isDigitByte then
    some (if neg then -(digitsVal ds : Int) else (digitsVal ds : Int))
  else none

/-- CPython `int()` applied to a byte string: optional surrounding ASCII
whitespace, an optional single sign, then decimal digits; anything else
raises `ValueError` (modelled as `none`).  Digit-grouping underscores and
non-ASCII digits, which the repository never writes, are omitted. -/
def pyInt (b : Bytes) : Option Int :=
  if (stripWs b).head? = some 43 then parseDigits (stripWs b).tail false
  else if (stripWs b).head? = some 45 then parseDigits (stripWs b).tail true
  else parseDigits (stripWs b) false

/-- `FolderKnowledgeRepository._kp_uuid` (folder.py lines 158-163):
returns `_kp_read_ref(path, "UUID")`, and any exception is caught and
turned into `None`. -/
def kp_uuid (st : PostStore) : Option Bytes :=
  match kpReadRef st "UUID" with
  | .ok d => some d
  | .error _ => none

/-- `FolderKnowledgeRepository._kp_get_revision` (folder.py lines 176-183):
returns `int(self._kp_read_ref(path, "REVISION"))`, and any exception —
a missing post, a missing reference, or `int()` rejecting the content —
is caught and turned into `0`. -/
def kp_get_revision (st : PostStore) : Int :=
  match kpReadRef st "REVISION" with
  | .ok d =>
    match pyInt d with
    | some n => n
    | none => 0
  | .error _ => 0

/-- One regular file met by `os.walk` inside an expanded post directory:
the directory components below the post root, and the file name. -/
structure WalkFile where
  dirs : List String
  filename : String
deriving DecidableEq, Repr

/-- The `dirpath` value `os.walk(root)` reports for a file whose directory
components below `root` are `dirs`: the walk starts at `root` itself, so
files at the post root see `dirpath = root`, never the empty string. -/
def walkDirpath (root : String) (dirs : List String) : String :=
  dirs.foldl (fun a d => a ++ "/" ++ d) root

/-- The path `os.path.relpath(os.path.join(dirpath, filename), root)`
yields for a walked file: its components below the root joined by `/`. -/
def relName (f : WalkFile) : String :=
  match f.dirs with
  | [] => f.filename
  | d :: rest => (rest.foldl (fun a x => a ++ "/" ++ x) d) ++ "/" ++ f.filename

/-- `FolderKnowledgeRepository._kp_dir`, expanded branch (folder.py lines
202-213): walk the post directory, skipping a file only when
`dirpath == "" and filename == "REVISION"`, and yield each remaining
file's path relative to the post root.  `root` is the absolute post
directory path handed to `os.walk`. -/
def kpDirExpanded (root : String) (files : List WalkFile) : List String :=
  files.filterMap fun f =>
    if walkDirpath root f.dirs = "" ∧ f.filename = "REVISION" then none
    else some (relName f)

/-- The decimal digits of `n`, most significant first, prepended to `acc`. -/
def natDigitsAux (n : Nat) (acc : List Nat) : List Nat :=
  if h : n < 10 then n :: acc
  else natDigitsAux (n / 10) (n % 10 :: acc)
termination_by n
decreasing_by exact Nat.div_lt_self (by omega) (by omega)

/-- The ASCII decimal representation of a natural number. -/
def natToDigitBytes (n : Nat) : Bytes :=
  (natDigitsAux n []).map (· + 48)

/-- Modelled from the spec: `knowledge_repo.utils.encoding.encode` is not
under `src/`; per the spec the `REVISION` reference holds the revision as a
decimal ASCII integer, so `encode` of an integer is its decimal ASCII
representation (with a leading minus sign when negative). -/
def encodeInt (i : Int) : Bytes :=
  if i < 0 then 45 :: natToDigitBytes i.natAbs else natToDigitBytes i.natAbs

/-- `FolderKnowledgeRepository._kp_new_revision` (folder.py lines 231-234):
write `REVISION := encode(_kp_get_revision(path) + 1)`, then, when the
`uuid` argument is truthy (neither `None` nor empty), write `UUID`.
The `REVISION` write happens first in every case. -/
def kp_new_revision (st : PostStore) (uuid : Option Bytes) : PostStore :=
  match uuid with
  | some u =>
      if u ≠ [] then
        kpWriteRef (kpWriteRef st "REVISION" (encodeInt (kp_get_revision st + 1)))
          "UUID" u
      else kpWriteRef st "REVISION" (encodeInt (kp_get_revision st + 1))
  | none => kpWriteRef st "REVISION" (encodeInt (kp_get_revision st + 1))

/-- `_kp_new_revision` calls iterated over a list of `uuid` arguments,
oldest call first. -/
def bumpSeq (st : PostStore) : List (Option Bytes) → PostStore
  | [] => st
  | u :: us => bumpSeq (kp_new_revision st u) us

/-- The observable behaviour of one hook file at its conventional path:
whether `os.access(hook_path, X_OK)` grants execute permission, and the
exit code and captured output streams of running it.  A hook argument of
`none` models the hook file being absent. -/
structure HookSpec where
  executable : Bool
  returncode : Int
  stdout : String
  stderr : String
deriving DecidableEq, Repr

/-- `git.HookExecutionError` as raised at git.py line 76:
`HookExecutionError(hp, process.returncode, stderr, stdout)` — the hook
identity, its exit code, and its captured stderr and stdout. -/
structure HookExecutionFailure where
  hook : String
  returncode : Int
  stderr : String
  stdout : String
deriving DecidableEq, Repr

/-- `run_commit_hook` (git.py lines 34-77): silently returns when no
executable hook file exists (`os.access` fails); otherwise runs the hook
and raises `HookExecutionError` carrying the exit code and captured
stdout/stderr when the hook exits non-zero.  The subprocess spawn itself
is modelled as succeeding; its platform shimming does not affect the
outcome modelled here. -/
def runCommitHook (name : String) (hook : Option HookSpec) :
    Except HookExecutionFailure Unit :=
  match hook with
  | none => Except.ok ()
  | some h =>
    if !h.executable then Except.ok ()
    else if h.returncode ≠ 0 then
      Except.error ⟨name, h.returncode, h.stderr, h.stdout⟩
    else Except.ok ()

/-- Repository history: the messages of the commits on the current head,
newest first.  `Commit.create_from_tree` prepends a commit. -/
structure GitState where
  commits : List String
deriving DecidableEq, Repr

/-- `IndexFileWrapper.commit` (git.py lines 80-114).  With hooks enabled it
runs `pre-commit` (a raised error aborts before any tree or commit object
is written), writes the commit message to the scratch editmsg file, runs
`commit-msg` (which may rewrite the message; `rewriteMsg` is the effect the
hook has on the scratch file, applied only when the hook actually runs),
re-reads the message, then writes the tree and creates the commit object,
and finally runs `post-commit` — whose raised error propagates to the
caller even though the commit object already exists, since git.py wraps
that call in no handler.  Returns the final repository state and either
the created commit's message (`Commit` return value) or the raised
`HookExecutionError`. -/
def commitModel (pre msgHook post : Option HookSpec)
    (rewriteMsg : String → String) (skipHooks : Bool) (message : String)
    (st : GitState) : GitState × Except HookExecutionFailure String :=
  if skipHooks then
    ({ commits := message :: st.commits }, Except.ok message)
  else
    match runCommitHook "pre-commit" pre with
    | Except.error e => (st, Except.error e)
    | Except.ok _ =>
      let edited :=
        match msgHook with
        | some h => if h.executable then rewriteMsg message else message
        | none => message
      match runCommitHook "commit-msg" msgHook with
      | Except.error e => (st, Except.error e)
      | Except.ok _ =>
        let st1 : GitState := { commits := edited :: st.commits }
        match runCommitHook "post-commit" post with
        | Except.error e => (st1, Except.error e)
        | Except.ok _ => (st1, Except.ok edited)

/- ## Helper lemmas -/

theorem getRef_setRef_same (refs : List (String × Bytes)) (name : String)
    (data : Bytes) : getRef (setRef refs name data) name = some data := by
  induction refs with
  | nil => simp [setRef, getRef]
  | cons hd tl ih =>
    obtain ⟨n, d⟩ := hd
    by_cases h : n = name
    · simp [setRef, getRef, h]
    · simp [setRef, getRef, h, ih]

theorem getRef_setRef_ne (refs : List (String × Bytes)) (name other : String)
    (data : Bytes) (h : other ≠ name) :
    getRef (setRef refs name data) other = getRef refs other := by
  have h2 : name ≠ other := Ne.symm h
  induction refs with
  | nil => simp [setRef, getRef, h2]
  | cons hd tl ih =>
    obtain ⟨n, d⟩ := hd
    by_cases hn : n = name
    · subst hn
      simp [setRef, getRef, h2]
    · simp [setRef, getRef, hn, ih]

theorem readRef_writeRef_same (st : PostStore) (name : String) (data : Bytes) :
    kpReadRef (kpWriteRef st name data) name = Except.ok data := by
  cases st <;> simp [kpWriteRef, kpReadRef, getRef_setRef_same]

theorem readRef_writeRef_ne (st : PostStore) (name other : String) (data : Bytes)
    (h : other ≠ name) :
    kpReadRef (kpWriteRef st name data) other = kpReadRef st other := by
  have h2 : name ≠ other := Ne.symm h
  cases st <;>
    simp [kpWriteRef, kpReadRef, getRef_setRef_ne _ _ _ _ h, getRef, h2]

theorem natDigitsAux_ne_nil (n : Nat) : ∀ acc, natDigitsAux n acc ≠ [] := by
  induction n using Nat.strong_induction_on with
  | _ n ih =>
    intro acc
    unfold natDigitsAux
    split
    · simp
    · rename_i h
      exact ih (n / 10) (Nat.div_lt_self (by omega) (by omega)) (n % 10 :: acc)

theorem natDigitsAux_lt_ten (n : Nat) :
    ∀ acc, (∀ d ∈ acc, d < 10) → ∀ d ∈ natDigitsAux n acc, d < 10 := by
  induction n using Nat.strong_induction_on with
  | _ n ih =>
    intro acc hacc d hd
    unfold natDigitsAux at hd
    split at hd
    · rename_i h
      rcases List.mem_cons.mp hd with rfl | hmem
      · omega
      · exact hacc d hmem
    · rename_i h
      refine ih (n / 10) (Nat.div_lt_self (by omega) (by omega)) (n % 10 :: acc)
        ?_ d hd
      intro x hx
      rcases List.mem_cons.mp hx with rfl | hx2
      · exact Nat.mod_lt _ (by omega)
      · exact hacc x hx2

/-- Decimal accumulation, the recursion-friendly form of `digitsVal`. -/
def foldDec (a : Nat) (l : List Nat) : Nat :=
  l.foldl (fun x d => x * 10 + d) a

theorem foldDec_digitsAux (n : Nat) :
    ∀ acc, foldDec 0 (natDigitsAux n acc) = foldDec n acc := by
  induction n using Nat.strong_induction_on with
  | _ n ih =>
    intro acc
    unfold natDigitsAux
    split
    · rename_i h
      show foldDec 0 (n :: acc) = foldDec n acc
      simp only [foldDec, List.foldl_cons]
      congr 1
      omega
    · rename_i h
      rw [ih (n / 10) (Nat.div_lt_self (by omega) (by omega)) (n % 10 :: acc)]
      show foldDec (n / 10) (n % 10 :: acc) = foldDec n acc
      simp only [foldDec, List.foldl_cons]
      congr 1
      omega

theorem digitsVal_natToDigitBytes (n : Nat) :
    digitsVal (natToDigitBytes n) = n := by
  unfold digitsVal natToDigitBytes
  rw [List.foldl_map]
  have hf : (fun (a : Nat) (d : Nat) => a * 10 + (d + 48 - 48)) =
      fun a d => a * 10 + d := by
    funext a d
    omega
  rw [hf]
  have h2 := foldDec_digitsAux n []
  simpa [foldDec] using h2

theorem natToDigitBytes_all_digits (n : Nat) :
    ∀ c ∈ natToDigitBytes n, isDigitByte c = true := by
  intro c hc
  unfold natToDigitBytes at hc
  rcases List.mem_map.mp hc with ⟨d, hd, rfl⟩
  have hlt := natDigitsAux_lt_ten n [] (by simp) d hd
  simp only [isDigitByte, Bool.and_eq_true, decide_eq_true_eq]
  omega

theorem natToDigitBytes_ne_nil (n : Nat) : natToDigitBytes n ≠ [] := by
  unfold natToDigitBytes
  intro h
  exact natDigitsAux_ne_nil n [] (by simpa using h)

theorem digit_not_ws (c : Nat) (h : isDigitByte c = true) : isPyWs c = false := by
  simp only [isDigitByte, Bool.and_eq_true, decide_eq_true_eq] at h
  simp only [isPyWs, Bool.or_eq_false_iff, decide_eq_false_iff_not]
  omega

theorem dropWhile_eq_self_of_not (p : Nat → Bool) (l : Bytes)
    (h : ∀ c ∈ l, p c = false) : l.dropWhile p = l := by
  cases l with
  | nil => rfl
  | cons c cs => simp [List.dropWhile, h c (by simp)]

theorem stripWs_eq_self (l : Bytes) (h : ∀ c ∈ l, isPyWs c = false) :
    stripWs l = l := by
  unfold stripWs
  rw [dropWhile_eq_self_of_not _ _ h]
  rw [dropWhile_eq_self_of_not _ _ (by
    intro c hc
    exact h c (List.mem_reverse.mp hc))]
  exact List.reverse_reverse l

theorem pyInt_natToDigitBytes (n : Nat) :
    pyInt (natToDigitBytes n) = some (n : Int) := by
  have hall := natToDigitBytes_all_digits n
  have hne := natToDigitBytes_ne_nil n
  have hstrip : stripWs (natToDigitBytes n) = natToDigitBytes n :=
    stripWs_eq_self _ (fun c hc => digit_not_ws c (hall c hc))
  cases hl : natToDigitBytes n with
  | nil => exact absurd hl hne
  | cons c rest =>
    rw [hl] at hstrip
    have hcd : isDigitByte c = true :=
      hall c (by rw [hl]; exact List.mem_cons_self c rest)
    have hcd2 := hcd
    simp only [isDigitByte, Bool.and_eq_true, decide_eq_true_eq] at hcd2
    unfold pyInt
    rw [hstrip]
    rw [if_neg (by simp; omega), if_neg (by simp; omega)]
    unfold parseDigits
    rw [if_pos ⟨by simp, by rw [← hl]; exact List.all_eq_true.mpr hall⟩]
    simp only [Bool.false_eq_true, if_false, Option.some.injEq]
    rw [← hl, digitsVal_natToDigitBytes]

theorem pyInt_encodeInt (i : Int) : pyInt (encodeInt i) = some i := by
  by_cases hneg : i < 0
  · have hall := natToDigitBytes_all_digits i.natAbs
    have hne := natToDigitBytes_ne_nil i.natAbs
    have hstrip : stripWs (45 :: natToDigitBytes i.natAbs) =
        45 :: natToDigitBytes i.natAbs := by
      apply stripWs_eq_self
      intro c hc
      rcases List.mem_cons.mp hc with rfl | hc2
      · decide
      · exact digit_not_ws c (hall c hc2)
    unfold encodeInt
    rw [if_pos hneg]
    unfold pyInt
    rw [hstrip]
    rw [if_neg (by simp), if_pos (by simp)]
    simp only [List.tail_cons]
    unfold parseDigits
    rw [if_pos ⟨hne, List.all_eq_true.mpr hall⟩]
    simp only [if_true, Option.some.injEq]
    rw [digitsVal_natToDigitBytes]
    omega
  · unfold encodeInt
    rw [if_neg hneg]
    rw [pyInt_natToDigitBytes]
    simp only [Option.some.injEq]
    omega

theorem kp_get_revision_of_read (st : PostStore) (i : Int)
    (h : kpReadRef st "REVISION" = Except.ok (encodeInt i)) :
    kp_get_revision st = i := by
  unfold kp_get_revision
  rw [h]
  simp [pyInt_encodeInt]

theorem kp_new_revision_read (st : PostStore) (u : Option Bytes) :
    kpReadRef (kp_new_revision st u) "REVISION" =
      Except.ok (encodeInt (kp_get_revision st + 1)) := by
  cases u with
  | none => exact readRef_writeRef_same st _ _
  | some u =>
    simp only [kp_new_revision]
    by_cases hu : u ≠ []
    · rw [if_pos hu]
      rw [readRef_writeRef_ne _ _ _ _ (by decide)]
      exact readRef_writeRef_same st _ _
    · rw [if_neg hu]
      exact readRef_writeRef_same st _ _

theorem kp_get_revision_new (st : PostStore) (u : Option Bytes) :
    kp_get_revision (kp_new_revision st u) = kp_get_revision st + 1 :=
  kp_get_revision_of_read _ _ (kp_new_revision_read st u)

theorem kp_uuid_new_none (st : PostStore) :
    kp_uuid (kp_new_revision st none) = kp_uuid st := by
  unfold kp_uuid
  simp only [kp_new_revision]
  rw [readRef_writeRef_ne _ _ _ _ (by decide)]

theorem kp_uuid_new_some (st : PostStore) (u : Bytes) (hu : u ≠ []) :
    kp_uuid (kp_new_revision st (some u)) = some u := by
  unfold kp_uuid
  simp only [kp_new_revision]
  rw [if_pos hu, readRef_writeRef_same]

theorem bumpSeq_revision (us : List (Option Bytes)) :
    ∀ st, kp_get_revision (bumpSeq st us) = kp_get_revision st + us.length := by
  induction us with
  | nil =>
    intro st
    simp [bumpSeq]
  | cons u us ih =>
    intro st
    simp only [bumpSeq]
    rw [ih (kp_new_revision st u), kp_get_revision_new]
    simp only [List.length_cons]
    push_cast
    ring

/- ## Claim theorems -/

/-- C1: writing a reference via the folder backend's `_kp_write_ref` and
reading it back via `_kp_read_ref` returns exactly the bytes written,
identically for the expanded and the packed physical form of the post. -/
theorem c1_write_read_roundtrip (st : PostStore) (reference : String)
    (data : Bytes) :
    kpReadRef (kpWriteRef st reference data) reference = Except.ok data :=
  readRef_writeRef_same st reference data

/-- C2: the folder backend's stored revision counter starts at 0 when no
`REVISION` reference can be read; every `_kp_new_revision` call increments
the stored value by exactly one and writes the `UUID` reference when a
truthy uuid is supplied; a bump passing no uuid leaves the UUID unchanged;
and after N new-revision calls on a fresh post the revision read back
equals N. -/
theorem c2_revision_counter (st : PostStore) (u : Bytes) (e : PyError)
    (us : List (Option Bytes)) :
    (kpReadRef st "REVISION" = Except.error e → kp_get_revision st = 0) ∧
    (∀ uu : Option Bytes,
      kp_get_revision (kp_new_revision st uu) = kp_get_revision st + 1) ∧
    (u ≠ [] → kp_uuid (kp_new_revision st (some u)) = some u) ∧
    (kp_uuid (kp_new_revision st none) = kp_uuid st) ∧
    (kp_get_revision (bumpSeq PostStore.absent us) = us.length) := by
  refine ⟨?_, fun uu => kp_get_revision_new st uu,
    fun hu => kp_uuid_new_some st u hu, kp_uuid_new_none st, ?_⟩
  · intro h
    simp [kp_get_revision, h]
  · rw [bumpSeq_revision us PostStore.absent]
    simp [kp_get_revision, kpReadRef]

/-- Witness for C2 at concrete inputs. -/
theorem c2_witness :
    kp_get_revision PostStore.absent = 0 ∧
    kp_get_revision (kp_new_revision PostStore.absent (some [97])) = 1 ∧
    kp_uuid (kp_new_revision PostStore.absent (some [97])) = some [97] ∧
    kp_get_revision (bumpSeq PostStore.absent [some [97], none, none]) = 3 := by
  have h := c2_revision_counter PostStore.absent [97] PyError.fileNotFound
    [some [97], none, none]
  refine ⟨h.1 rfl, ?_, h.2.2.1 (by decide), ?_⟩
  · have h2 := h.2.1 (some [97])
    rw [h.1 rfl] at h2
    simpa using h2
  · have h3 := h.2.2.2.2
    simpa using h3

/-- C3: the folder backend's status query returns PUBLISHED for every post
path and revision argument, in particular immediately after a successful
add. -/
theorem c3_status_always_published (path : String) (revision : Option Nat) :
    kpStatus path revision = PostStatus.published :=
  rfl

/-- C4: refuted as stated — the `dirpath == ""` guard in `_kp_dir` never
fires because `os.walk` reports the post root itself (an absolute path) as
`dirpath`, so the reserved `REVISION` reference, and the never-filtered
`UUID`, are yielded when enumerating an expanded post's root. -/
theorem c4_dir_yields_reserved :
    kpDirExpanded "/repo/posts/a.kp"
      [⟨[], "REVISION"⟩, ⟨[], "UUID"⟩, ⟨[], "body.md"⟩] =
      ["REVISION", "UUID", "body.md"] := by
  decide

/-- C5: with hooks enabled, an executable pre-commit hook that exits
non-zero makes the commit fail with a HookExecutionError carrying the exit
code and the captured stdout/stderr while leaving the repository history
unchanged; with no executable pre-commit hook the hook step is silently
skipped and the commit proceeds. -/
theorem c5_precommit_gate (msgHook post : Option HookSpec)
    (rewriteMsg : String → String) (message : String) (st : GitState)
    (h : HookSpec) :
    (h.executable = true → h.returncode ≠ 0 →
      commitModel (some h) msgHook post rewriteMsg false message st =
        (st, Except.error ⟨"pre-commit", h.returncode, h.stderr, h.stdout⟩)) ∧
    (commitModel none none none rewriteMsg false message st =
      ({ commits := message :: st.commits }, Except.ok message)) ∧
    (h.executable = false →
      commitModel (some h) none none rewriteMsg false message st =
        ({ commits := message :: st.commits }, Except.ok message)) := by
  refine ⟨?_, ?_, ?_⟩
  · intro hex hrc
    simp [commitModel, runCommitHook, hex, hrc]
  · simp [commitModel, runCommitHook]
  · intro hex
    simp [commitModel, runCommitHook, hex]

/-- Witness for C5 at concrete inputs. -/
theorem c5_witness :
    commitModel (some ⟨true, 2, "out", "err"⟩) none none (fun s => s) false
        "m" ⟨[]⟩ = (⟨[]⟩, Except.error ⟨"pre-commit", 2, "err", "out"⟩) ∧
    commitModel none none none (fun s => s) false "m" ⟨[]⟩ =
      (⟨["m"]⟩, Except.ok "m") ∧
    commitModel (some ⟨false, 2, "out", "err"⟩) none none (fun s => s) false
        "m" ⟨[]⟩ = (⟨["m"]⟩, Except.ok "m") := by
  have h1 := c5_precommit_gate none none (fun s => s) "m" ⟨[]⟩
    ⟨true, 2, "out", "err"⟩
  have h2 := c5_precommit_gate none none (fun s => s) "m" ⟨[]⟩
    ⟨false, 2, "out", "err"⟩
  exact ⟨h1.1 rfl (by decide), h1.2.1, h2.2.2 rfl⟩

/-- C6 counterexample: with an otherwise clean commit, a post-commit hook
exiting non-zero makes `IndexFileWrapper.commit` propagate a
HookExecutionError instead of returning the new commit. -/
theorem c6_counterexample :
    (commitModel none none (some ⟨true, 1, "out", "err"⟩) (fun s => s) false
        "m" ⟨[]⟩).2 = Except.error ⟨"post-commit", 1, "err", "out"⟩ := by
  rfl

/-- C6 amended: a post-commit hook that exits non-zero does make the commit
operation fail — `run_commit_hook("post-commit")` raises and nothing
catches or logs the error — but only after the commit object has been
created: the call leaves the new commit in the history while `commit`
propagates the HookExecutionError instead of returning. -/
theorem c6_postcommit_raises_after_commit (rewriteMsg : String → String)
    (message : String) (st : GitState) (h : HookSpec)
    (hex : h.executable = true) (hrc : h.returncode ≠ 0) :
    commitModel none none (some h) rewriteMsg false message st =
      ({ commits := message :: st.commits },
        Except.error ⟨"post-commit", h.returncode, h.stderr, h.stdout⟩) := by
  simp [commitModel, runCommitHook, hex, hrc]

/-- Witness for the amended C6 at concrete inputs. -/
theorem c6_witness :
    commitModel none none (some ⟨true, 3, "o", "e"⟩) (fun s => s) false "m"
        ⟨["old"]⟩ =
      (⟨["m", "old"]⟩, Except.error ⟨"post-commit", 3, "e", "o"⟩) :=
  c6_postcommit_raises_after_commit (fun s => s) "m" ⟨["old"]⟩
    ⟨true, 3, "o", "e"⟩ rfl (by decide)

/-- C7: URI resolution — a `file://` URI is decoded and yields the folder
backend with no git auto-detection (even when a `.git` directory exists);
otherwise a `.git` directory at the path selects the git backend, and the
folder backend is the fallback. -/
theorem c7_from_uri_resolution (uriToPath : String → String)
    (gitDirExists : String → Bool) (uri : String) :
    (strStartsWith "file://" uri = true →
      from_uri uriToPath gitDirExists uri =
        RepoChoice.folder (uriToPath uri)) ∧
    (strStartsWith "file://" uri = false → gitDirExists uri = true →
      from_uri uriToPath gitDirExists uri = RepoChoice.git uri) ∧
    (strStartsWith "file://" uri = false → gitDirExists uri = false →
      from_uri uriToPath gitDirExists uri = RepoChoice.folder uri) := by
  refine ⟨fun h1 => by simp [from_uri, h1],
    fun h1 h2 => by simp [from_uri, h1, h2],
    fun h1 h2 => by simp [from_uri, h1, h2]⟩

/-- Witness for C7 at concrete inputs. -/
theorem c7_witness :
    from_uri (fun s => s) (fun _ => true) "file:///tmp/kr" =
      RepoChoice.folder "file:///tmp/kr" ∧
    from_uri (fun s => s) (fun _ => true) "/tmp/kr" =
      RepoChoice.git "/tmp/kr" ∧
    from_uri (fun s => s) (fun _ => false) "/tmp/kr" =
      RepoChoice.folder "/tmp/kr" := by
  refine ⟨(c7_from_uri_resolution (fun s => s) (fun _ => true)
      "file:///tmp/kr").1 (by decide),
    (c7_from_uri_resolution (fun s => s) (fun _ => true) "/tmp/kr").2.1
      (by decide) rfl,
    (c7_from_uri_resolution (fun s => s) (fun _ => false) "/tmp/kr").2.2
      (by decide) rfl⟩

/-- C8 counterexample: `_submit` and `_accept` on the folder backend are
no-ops that return normally, so it is false that every lifecycle operation
beyond add fails with a not-supported error. -/
theorem c8_counterexample :
    ¬ (folder_submit (some "posts/example.kp") none false =
         OpOutcome.notImplementedError ∧
       folder_accept "posts/example.kp" = OpOutcome.notImplementedError) := by
  decide

/-- C8 amended: on the folder backend only `_unpublish` raises
`NotImplementedError`; `_submit` and `_accept` silently succeed for every
path, since added posts are already submitted and published. -/
theorem c8_lifecycle_outcomes (path : String) (p : Option String)
    (branch : Option String) (force : Bool) :
    folder_unpublish path = OpOutcome.notImplementedError ∧
    folder_submit p branch force = OpOutcome.ok ∧
    folder_accept path = OpOutcome.ok :=
  ⟨rfl, rfl, rfl⟩

/-- C9: refuted as stated — `_remove` is `shutil.rmtree`, which raises
`NotADirectoryError` on a packed single-file post and deletes nothing,
while it does remove an expanded post directory; and once a post is gone
`_kp_has_ref` raises `FileNotFoundError` through `KnowledgePost.from_file`
instead of returning false. -/
theorem c9_remove_behaviour :
    removePost (PostStore.packed [("body.md", [97])]) =
      Except.error PyError.notADirectory ∧
    removePost (PostStore.expanded [("body.md", [97])]) =
      Except.ok PostStore.absent ∧
    kpHasRef PostStore.absent "body.md" = Except.error PyError.fileNotFound :=
  ⟨rfl, rfl, rfl⟩

/-- C10: `_kp_uuid` and `_kp_get_revision` are total — a failed read of the
reserved `UUID` reference yields `None`, and a failed read of `REVISION`,
or stored content that `int()` rejects, yields `0`. -/
theorem c10_uuid_revision_total (st : PostStore) (d : Bytes) (e : PyError) :
    (kpReadRef st "UUID" = Except.error e → kp_uuid st = none) ∧
    (kpReadRef st "REVISION" = Except.error e → kp_get_revision st = 0) ∧
    (kpReadRef st "REVISION" = Except.ok d → pyInt d = none →
      kp_get_revision st = 0) ∧
    kp_uuid PostStore.absent = none ∧
    kp_get_revision PostStore.absent = 0 := by
  refine ⟨?_, ?_, ?_, rfl, rfl⟩
  · intro h
    simp [kp_uuid, h]
  · intro h
    simp [kp_get_revision, h]
  · intro h1 h2
    simp [kp_get_revision, h1, h2]

/-- Witness for C10 at concrete inputs. -/
theorem c10_witness :
    kp_uuid (PostStore.expanded [("REVISION", [97, 98, 99])]) = none ∧
    kp_get_revision (PostStore.expanded [("REVISION", [97, 98, 99])]) = 0 ∧
    kp_get_revision (PostStore.expanded []) = 0 := by
  have h1 := c10_uuid_revision_total
    (PostStore.expanded [("REVISION", [97, 98, 99])]) [97, 98, 99]
    PyError.fileNotFound
  have h2 := c10_uuid_revision_total (PostStore.expanded []) []
    PyError.fileNotFound
  exact ⟨h1.1 rfl, h1.2.2.1 rfl (by decide), h2.2.1 rfl⟩

end KR
